import Mathlib

/-!
Verification of the incremental WebDAV sync core of `obsidian-webdav-sync`.

The development shallowly embeds the TypeScript sources:
* `src/storage/file-index.ts` — the persistent index store (`FileIndexStore`,
  `DirMtimeStore`, `SyncProgressStore`), modelled as keyed association lists
  with replace-or-append write semantics (one entry per key, like the
  localforage keyed stores backing them).
* `RemoteDeltaDetectorService` — `detectChanges`, `detectDirChanges`,
  `scanDirForChanges`, `isModified`, `fullScan`, `scanDirRecursive`,
  `updateFileIndex`, `updateDirMtimeCache`, `getStats`.
* `IncrementalWebDAVFileSystem` — `walk`, `fullScan`, `getFromIndex`,
  `getStats`.

Modelling conventions:
* The remote WebDAV tree is a flat list of `StatModel` records with
  normalized absolute paths (leading `/`, no trailing `/`); `propfind`
  realizes the abstract capability of spec section 4.2: depth 0 yields the
  resource itself, depth 1 yields the resource followed by its immediate
  children (those whose `dirname` is the resource).  Transport errors are
  not modelled; a missing resource yields the empty response, which the
  source treats as deletion.
* General recursion over the remote tree (the source recurses through
  `propfind` results) is given a fuel parameter; every theorem either
  holds for all fuel or is instantiated with fuel larger than the tree
  depth of the concrete scenario.
* JavaScript timestamps (`Date.now()`) are passed in as an explicit `now`
  argument.
* The bounded-concurrency chunked `Promise.all` fan-out over subdirectories
  is determinized to sequential left-to-right traversal; it produces the
  same set of results (the spec directs consumers to treat change lists as
  sets).
* localforage's `iterate` protocol (`lfIterate`) stops exactly when the
  per-entry callback's immediate return value is other than `undefined`
  (`Option.some` here), localforage's documented early-exit signal.  The
  `iterateAll` wrapper hands localforage an `async` callback, whose
  immediate return value is a Promise object — never `undefined` — so the
  faithful model of `iterateAll` stops after the first entry no matter
  what the user callback returns.
* String manipulation from the source (`dirname` of path-browserify,
  JavaScript `String.replace`, HTML-entity decoding) is re-implemented on
  character lists so that everything reduces in the kernel.
-/

/-! ## Data model (src/storage/file-index.ts and model/stat.model) -/

/-- `StatModel`: the record exchanged with the remote adapter and callers. -/
structure StatModel where
  path : String
  basename : String
  isDir : Bool
  isDeleted : Bool
  mtime : Nat
  size : Nat
deriving DecidableEq, Repr

/-- `FileIndexEntry` from src/storage/file-index.ts. -/
structure FileIndexEntry where
  path : String
  basename : String
  isDir : Bool
  mtime : Nat
  size : Nat
  etag : Option String
  contentHash : Option String
  lastSynced : Nat
  parentPath : String
deriving DecidableEq, Repr

/-- `DirMtimeEntry` from src/storage/file-index.ts. -/
structure DirMtimeEntry where
  path : String
  mtime : Nat
  lastChecked : Nat
  childCount : Nat
deriving DecidableEq, Repr

/-- The `phase` field of `SyncProgress`. -/
inductive SyncPhase where
  | scanning
  | comparing
  | syncing
  | updating
deriving DecidableEq, Repr

/-- `SyncProgress` from src/storage/file-index.ts. -/
structure SyncProgress where
  sessionId : String
  startTime : Nat
  phase : SyncPhase
  processedCount : Nat
  totalCount : Nat
  currentPath : String
  pendingTasks : List String
  completedTasks : List String
  failedTasks : List String
deriving DecidableEq, Repr

/-- The `type` field of a `RemoteChange`. -/
inductive ChangeType where
  | added
  | modified
  | deleted
deriving DecidableEq, Repr

/-- `RemoteChange` from the delta-detector service. -/
structure RemoteChange where
  path : String
  type : ChangeType
  stat : Option StatModel
deriving DecidableEq, Repr

/-- `DeltaDetectionResult` from the delta-detector service. -/
structure DeltaDetectionResult where
  changes : List RemoteChange
  needFullScan : Bool
  scannedDirs : Nat
  changedDirs : Nat
deriving DecidableEq, Repr

/-! ## String and path utilities

The source uses path-browserify `dirname` on normalized absolute paths and
JavaScript string primitives.  They are re-implemented structurally on
`List Char` so every definition reduces in the kernel. -/

/-- Split a character list at `/` separators (the segments of a path). -/
def splitOnSlashAux : List Char → List (List Char)
  | [] => [[]]
  | c :: cs =>
    match splitOnSlashAux cs with
    | [] => [[]]
    | seg :: segs => if c = '/' then [] :: seg :: segs else (c :: seg) :: segs

/-- path-browserify `dirname` restricted to normalized absolute paths
(leading `/`, no trailing `/`): drop the last segment, yielding `/` for
top-level paths and for `/` itself. -/
def dirname (p : String) : String :=
  let parts := (splitOnSlashAux p.data).filter (fun seg => seg ≠ [])
  match parts.dropLast with
  | [] => "/"
  | init => String.mk ('/' :: List.intercalate ['/'] init)

/-- `b` is a string-literal prefix of `p` (JavaScript `startsWith`). -/
def strHasPref (b p : String) : Bool :=
  b.data.isPrefixOf p.data

/-- Remove the first occurrence of `pat` (JavaScript
`String.prototype.replace(pat, "")` for a non-empty plain-string pattern). -/
def dropFirstOccur (pat : List Char) : List Char → List Char
  | [] => []
  | c :: cs =>
    if pat.isPrefixOf (c :: cs) then (c :: cs).drop pat.length
    else c :: dropFirstOccur pat cs

/-- JavaScript `s.replace(pat, "")`: remove the first occurrence of `pat`. -/
def replaceFirst (s pat : String) : String :=
  String.mk (dropFirstOccur pat.data s.data)

/-- Replace every occurrence of `pat` by `repl`; the fuel argument (the
input length suffices, as each step consumes at least one character) makes
the recursion structural. -/
def replaceAllAux (pat repl : List Char) : Nat → List Char → List Char
  | 0, l => l
  | _ + 1, [] => []
  | fuel + 1, c :: cs =>
    if pat ≠ [] ∧ pat.isPrefixOf (c :: cs)
    then repl ++ replaceAllAux pat repl fuel ((c :: cs).drop pat.length)
    else c :: replaceAllAux pat repl fuel cs

/-- Replace every occurrence of `pat` in `s` by `repl`. -/
def replaceAll (s pat repl : String) : String :=
  String.mk (replaceAllAux pat.data repl.data s.data.length s.data)

/-- Modelled from the spec: the html-entities `decode` applied to path
strings (the library is an external collaborator, not part of src/);
section 4.4 requires decoding HTML entities in paths, so the five standard
named entities are decoded. -/
def decodeHtmlEntityM (s : String) : String :=
  replaceAll (replaceAll (replaceAll (replaceAll (replaceAll s
    "&lt;" "<") "&gt;" ">") "&quot;" "\"") "&#39;" "\x27") "&amp;" "&"

example : dirname "/base/sub/x" = "/base/sub" := by decide
example : dirname "/base" = "/" := by decide
example : dirname "/" = "/" := by decide
example : replaceFirst "/base/a.txt" "/base" = "/a.txt" := by decide
example : decodeHtmlEntityM "/a&amp;b" = "/a&b" := by decide
example : strHasPref "/base/" "/base/a.txt" = true := by decide

/-! ## Remote adapter (spec section 4.2)

The remote tree is a flat list of `StatModel` records.  `propfind` realizes
the abstract `propfind(path, depth)` capability consumed by the detector:
depth 0 returns the resource itself, depth 1 returns the resource followed
by its immediate children. -/

/-- A remote WebDAV tree: the stats of every live resource, with normalized
absolute paths. -/
abbrev Remote := List StatModel

/-- The abstract `propfind(path, depth)` capability of spec section 4.2. -/
def propfind (r : Remote) (p : String) (depth : Nat) : List StatModel :=
  if depth = 0 then r.filter (fun s => s.path == p)
  else r.filter (fun s => s.path == p) ++
       r.filter (fun s => s.path != p && dirname s.path == p)

/-- `RemoteDeltaDetectorService.statDir`: depth-0 propfind; an empty
response (resource gone) yields `none`. -/
def statDir (r : Remote) (p : String) : Option Nat :=
  match propfind r p 0 with
  | [] => none
  | s :: _ => some s.mtime

/-- `RemoteDeltaDetectorService.getSubDirs`: the immediate subdirectories
reported by a depth-1 propfind, the directory itself excluded. -/
def getSubDirs (r : Remote) (p : String) : List String :=
  ((propfind r p 1).filter (fun item => item.isDir && item.path != p)).map
    (fun item => item.path)

/-- `RemoteDeltaDetectorService.listDir`: depth-1 propfind minus the
directory itself. -/
def listDir (r : Remote) (p : String) : List StatModel :=
  (propfind r p 1).filter (fun item => item.path != p)

/-! ## The persistent index store (src/storage/file-index.ts)

localforage keyed stores are modelled as association lists keyed by `path`:
`setItem` replaces the existing record for the key or appends a fresh one;
`removeItem` drops the record for the key. -/

/-- `db.setItem(entry.path, entry)`: replace-or-append by key. -/
def setItem (s : List FileIndexEntry) (e : FileIndexEntry) : List FileIndexEntry :=
  if s.any (fun x => x.path == e.path)
  then s.map (fun x => if x.path == e.path then e else x)
  else s ++ [e]

/-- `FileIndexStore.batchSet` (chunking does not affect the final state). -/
def batchSet (s : List FileIndexEntry) (entries : List FileIndexEntry) : List FileIndexEntry :=
  entries.foldl setItem s

/-- `db.removeItem(path)`. -/
def removeItem (s : List FileIndexEntry) (p : String) : List FileIndexEntry :=
  s.filter (fun e => e.path != p)

/-- `FileIndexStore.batchDelete`. -/
def batchDelete (s : List FileIndexEntry) (paths : List String) : List FileIndexEntry :=
  paths.foldl removeItem s

/-- `FileIndexStore.getByParent(parentPath, offset, limit)`: the entries
whose `parentPath` matches, in store order, windowed by offset and limit.
(The source's early-exit `return undefined` does not actually stop the
localforage iteration, but the guard `count < limit` makes the result the
same window.) -/
def getByParent (s : List FileIndexEntry) (parentPath : String) (offset limit : Nat) : List FileIndexEntry :=
  (((s.filter (fun e => e.parentPath == parentPath)).drop offset).take limit)

/-- `getByParent` at its default arguments (`offset = 0`, `limit = 1000`),
as called by the detector. -/
def getByParentD (s : List FileIndexEntry) (parentPath : String) : List FileIndexEntry :=
  getByParent s parentPath 0 1000

/-- `FileIndexStore.getAllDirs`: paths of the entries with `isDir`. -/
def getAllDirs (s : List FileIndexEntry) : List String :=
  (s.filter (fun e => e.isDir)).map (fun e => e.path)

/-- `DirMtimeStore` `setItem`: replace-or-append by key. -/
def dirSetItem (s : List DirMtimeEntry) (e : DirMtimeEntry) : List DirMtimeEntry :=
  if s.any (fun x => x.path == e.path)
  then s.map (fun x => if x.path == e.path then e else x)
  else s ++ [e]

/-- `DirMtimeStore.batchSet`. -/
def dirBatchSet (s : List DirMtimeEntry) (entries : List DirMtimeEntry) : List DirMtimeEntry :=
  entries.foldl dirSetItem s

/-- Lookup in the map built by `DirMtimeStore.getAll` (keys are paths). -/
def dirLookup (s : List DirMtimeEntry) (p : String) : Option DirMtimeEntry :=
  s.find? (fun e => e.path == p)

/-- localforage `iterate`, synchronously: the callback runs on each entry
in store order and iteration stops exactly after a callback returns a
non-`undefined` value (`some`); the visited entries are returned. -/
def lfIterate {α : Type} (cb : α → Option Unit) : List α → List α
  | [] => []
  | e :: rest =>
    match cb e with
    | some _ => [e]
    | none => e :: lfIterate cb rest

/-- `FileIndexStore.iterateAll`: the entries its localforage iteration
visits for a given callback.  The inner arrow function is `async`, so the
immediate return value localforage inspects is a Promise — a defined
value, hence the early-exit signal — for every visited entry (`some` of
the promised value here); the awaited body runs the user callback and
yields `undefined` on both of its paths — the `return undefined` under
`if (shouldContinue === false)` (commented "stop iteration" in the
source) as well as the implicit fall-through — so the callback's
continuation signal influences nothing and iteration stops after the
first entry regardless. -/
def iterateAllVisited (s : List FileIndexEntry) (callback : FileIndexEntry → Bool) : List FileIndexEntry :=
  lfIterate (fun value =>
    let shouldContinue := callback value
    some (if shouldContinue = false then () else ())) s

/-! ## Delta detector (`RemoteDeltaDetectorService`) -/

/-- `RemoteDeltaDetectorService.isModified`. -/
def isModified (cached : FileIndexEntry) (remote : StatModel) : Bool :=
  if cached.isDir != remote.isDir then true
  else if !remote.isDir && cached.mtime != remote.mtime then true
  else if !remote.isDir && cached.size != remote.size then true
  else false

/-- The added/modified half of `scanDirForChanges`: iterate the current
listing and compare each path against the cached listing. -/
def diffAddMod (remoteFiles : List StatModel) (cachedFiles : List FileIndexEntry) : List RemoteChange :=
  remoteFiles.filterMap (fun rs =>
    match cachedFiles.find? (fun c => c.path == rs.path) with
    | none => some ⟨rs.path, ChangeType.added, some rs⟩
    | some c =>
      if isModified c rs then some ⟨rs.path, ChangeType.modified, some rs⟩
      else none)

/-- The deleted half of `scanDirForChanges`: cached paths absent from the
current listing. -/
def diffDeleted (remoteFiles : List StatModel) (cachedFiles : List FileIndexEntry) : List RemoteChange :=
  cachedFiles.filterMap (fun c =>
    if (remoteFiles.find? (fun rs => rs.path == c.path)).isSome then none
    else some ⟨c.path, ChangeType.deleted, none⟩)

/-- The file-level diff of one directory (the two `Map`s of the source are
keyed by path; with duplicate-free listings — which propfind over a
duplicate-free remote and the keyed store always produce — the association
lists here have the same lookup and iteration behavior). -/
def diffLists (remoteFiles : List StatModel) (cachedFiles : List FileIndexEntry) : List RemoteChange :=
  diffAddMod remoteFiles cachedFiles ++ diffDeleted remoteFiles cachedFiles

/-- `RemoteDeltaDetectorService.scanDirForChanges`: current listing via
depth-1 propfind, cached listing via `getByParent` at default paging. -/
def scanDirForChanges (r : Remote) (idx : List FileIndexEntry) (dirPath : String) : List RemoteChange :=
  diffLists (listDir r dirPath) (getByParentD idx dirPath)

/-- `RemoteDeltaDetectorService.detectDirChanges`, with fuel for the
recursion through `propfind` results.  Returns the changed-directory list
(in push order: a directory before its descendants), the number of
`onScanned` ticks (`scannedDirs`), and the number of depth-0 propfinds
issued — the last two coincide because every invocation performs exactly
one `statDir` and one `onScanned` tick. -/
def detectDirChanges (r : Remote) (cache : List DirMtimeEntry) : Nat → String → List String × Nat × Nat
  | 0, _ => ([], 0, 0)
  | fuel + 1, dirPath =>
    match statDir r dirPath with
    | none => ([dirPath], 1, 1)
    | some m =>
      let cachedHit := match dirLookup cache dirPath with
        | some e => e.mtime == m
        | none => false
      if cachedHit then ([], 1, 1)
      else
        let recs := (getSubDirs r dirPath).map
          (fun subDir => detectDirChanges r cache fuel subDir)
        (dirPath :: recs.flatMap (fun t => t.1),
         1 + (recs.map (fun t => t.2.1)).sum,
         1 + (recs.map (fun t => t.2.2)).sum)

/-- `RemoteDeltaDetectorService.detectChanges`. -/
def detectChanges (fuel : Nat) (r : Remote) (idx : List FileIndexEntry)
    (cache : List DirMtimeEntry) (remoteBaseDir : String) : DeltaDetectionResult :=
  if cache.isEmpty then ⟨[], true, 0, 0⟩
  else
    let t := detectDirChanges r cache fuel remoteBaseDir
    ⟨t.1.flatMap (fun dir => scanDirForChanges r idx dir), false, t.2.1, t.1.length⟩

/-- The number of depth-0 propfind requests `detectChanges` issues (all of
them come from `statDir` inside `detectDirChanges`; the file-level diff
uses only depth-1 listings). -/
def detectChangesPropfind0 (fuel : Nat) (r : Remote) (cache : List DirMtimeEntry)
    (remoteBaseDir : String) : Nat :=
  if cache.isEmpty then 0
  else (detectDirChanges r cache fuel remoteBaseDir).2.2

example : detectDirChanges [] [] 2 "/a" = (["/a"], 1, 1) := rfl

/-- The `FileIndexEntry` built from one propfind stat inside
`fullScan`'s batch callback: `lastSynced` is hard-coded `0` there, and
`parentPath` is path-browserify `dirname`. -/
def statToEntry (stat : StatModel) : FileIndexEntry :=
  { path := stat.path
    basename := stat.basename
    isDir := stat.isDir
    mtime := stat.mtime
    size := if stat.isDir then 0 else stat.size
    etag := none
    contentHash := none
    lastSynced := 0
    parentPath := dirname stat.path }

/-- Accumulated output of `scanDirRecursive`: the file-index batches in
write order, the `dirMtimes` records in push order, and the running file
and directory counters of `fullScan`. -/
structure ScanAcc where
  entries : List FileIndexEntry
  dirMtimes : List DirMtimeEntry
  fileCount : Nat
  dirCount : Nat
deriving DecidableEq, Repr

/-- `RemoteDeltaDetectorService.scanDirRecursive` together with the batch
callback `fullScan` passes it: one depth-1 propfind per directory, the
directory's own mtime from the response, its children batched into the
index, then recursion into subdirectories. -/
def scanDirRecursive (r : Remote) (now : Nat) : Nat → String → ScanAcc
  | 0, _ => ⟨[], [], 0, 0⟩
  | fuel + 1, dirPath =>
    let contents := propfind r dirPath 1
    let dirMtime := match contents.find? (fun c => c.path == dirPath) with
      | some s => s.mtime
      | none => 0
    let items := contents.filter (fun c => c.path != dirPath)
    let recs := (items.filter (fun item => item.isDir)).map
      (fun subDir => scanDirRecursive r now fuel subDir.path)
    ⟨items.map statToEntry ++ recs.flatMap (fun a => a.entries),
     ⟨dirPath, dirMtime, now, items.length⟩ :: recs.flatMap (fun a => a.dirMtimes),
     (items.filter (fun e => !e.isDir)).length + (recs.map (fun a => a.fileCount)).sum,
     (items.filter (fun e => e.isDir)).length + (recs.map (fun a => a.dirCount)).sum⟩

/-- The state `RemoteDeltaDetectorService.fullScan` leaves behind together
with its returned counts: both stores are cleared first, the file batches
are written during the recursion, and the collected `dirMtimes` are batch-
written at the end. -/
structure FullScanOut where
  fileIndex : List FileIndexEntry
  dirCache : List DirMtimeEntry
  fileCount : Nat
  dirCount : Nat
deriving DecidableEq, Repr

/-- `RemoteDeltaDetectorService.fullScan`. -/
def fullScan (fuel now : Nat) (r : Remote) (remoteBaseDir : String) : FullScanOut :=
  let acc := scanDirRecursive r now fuel remoteBaseDir
  ⟨batchSet [] acc.entries, dirBatchSet [] acc.dirMtimes, acc.fileCount, acc.dirCount⟩

/-- The `toSet` list `updateFileIndex` accumulates: one fresh record per
non-deleted change that carries a stat, stamped `lastSynced = now`. -/
def changesToSet (now : Nat) (changes : List RemoteChange) : List FileIndexEntry :=
  changes.filterMap (fun change =>
    match change.type with
    | ChangeType.deleted => none
    | _ =>
      change.stat.map (fun stat =>
        { path := change.path
          basename := stat.basename
          isDir := stat.isDir
          mtime := stat.mtime
          size := if stat.isDir then 0 else stat.size
          etag := none
          contentHash := none
          lastSynced := now
          parentPath := dirname change.path }))

/-- The `toDelete` list `updateFileIndex` accumulates. -/
def changesToDelete (changes : List RemoteChange) : List String :=
  changes.filterMap (fun change =>
    match change.type with
    | ChangeType.deleted => some change.path
    | _ => none)

/-- `RemoteDeltaDetectorService.updateFileIndex`: batch-set the additions
and modifications, then batch-delete the deletions (the source skips empty
batches, which is a no-op either way). -/
def updateFileIndex (now : Nat) (changes : List RemoteChange)
    (idx : List FileIndexEntry) : List FileIndexEntry :=
  batchDelete (batchSet idx (changesToSet now changes)) (changesToDelete changes)

/-- JavaScript `Set` accumulation: insert if absent, preserving insertion
order. -/
def insertIfAbsent (l : List String) (x : String) : List String :=
  if x ∈ l then l else l ++ [x]

/-- The `affectedDirs` set of `updateDirMtimeCache`: the parents of all
changed paths, in first-insertion order. -/
def affectedDirs (changes : List RemoteChange) : List String :=
  changes.foldl (fun acc change => insertIfAbsent acc (dirname change.path)) []

/-- `RemoteDeltaDetectorService.updateDirMtimeCache`: re-stat each affected
parent and upsert its `DirMtimeEntry` with `childCount = 0`; a failed stat
(directory gone) updates nothing. -/
def updateDirMtimeCache (now : Nat) (r : Remote) (changes : List RemoteChange)
    (cache : List DirMtimeEntry) : List DirMtimeEntry :=
  (affectedDirs changes).foldl (fun acc dirPath =>
    match statDir r dirPath with
    | some m => dirSetItem acc ⟨dirPath, m, now, 0⟩
    | none => acc) cache

/-- Detector-level stats record. -/
structure DetectorStats where
  fileCount : Nat
  dirCount : Nat
deriving DecidableEq, Repr

/-- `RemoteDeltaDetectorService.getStats`: `getAllDirs` over the file index
gives the directory count, total entry count minus it the file count. -/
def getStats (idx : List FileIndexEntry) : DetectorStats :=
  ⟨idx.length - (getAllDirs idx).length, (getAllDirs idx).length⟩

/-! ## Sync driver (`IncrementalWebDAVFileSystem`) -/

/-- The three persistent stores of one namespace. -/
structure StoreState where
  fileIndex : List FileIndexEntry
  dirCache : List DirMtimeEntry
  progress : Option SyncProgress
deriving DecidableEq, Repr

/-- `DirMtimeStore.getAll` as an explicit state-passing read. -/
def dirStoreGetAll (s : StoreState) : List DirMtimeEntry × StoreState :=
  (s.dirCache, s)

/-- `FileIndexStore.getByParent` (default paging) as an explicit
state-passing read. -/
def idxGetByParent (p : String) (s : StoreState) : List FileIndexEntry × StoreState :=
  (getByParentD s.fileIndex p, s)

/-- `scanDirForChanges` with the store read threaded through the state. -/
def scanDirForChangesSt (r : Remote) (dirPath : String) (s : StoreState) :
    List RemoteChange × StoreState :=
  let lst := listDir r dirPath
  let read := idxGetByParent dirPath s
  (diffLists lst read.1, read.2)

/-- `detectChanges` with every store access threaded through the state:
one `getAll` on the dir-mtime store, then one `getByParent` per changed
directory, exactly the accesses the source performs. -/
def detectChangesSt (fuel : Nat) (r : Remote) (remoteBaseDir : String)
    (s : StoreState) : DeltaDetectionResult × StoreState :=
  let read := dirStoreGetAll s
  if read.1.isEmpty then (⟨[], true, 0, 0⟩, read.2)
  else
    let t := detectDirChanges r read.1 fuel remoteBaseDir
    let scanned := t.1.foldl (fun (acc : List RemoteChange × StoreState) dir =>
      let one := scanDirForChangesSt r dir acc.2
      (acc.1 ++ one.1, one.2)) ([], read.2)
    (⟨scanned.1, false, t.2.1, t.1.length⟩, scanned.2)

/-- Modelled from the spec: `stdRemotePath` (src/utils/std-remote-path is
not under src/) normalizes a remote path to the leading-slash convention of
section 3. -/
def stdRemotePath (p : String) : String :=
  if strHasPref "/" p then p else String.mk ('/' :: p.data)

/-- Modelled from the spec: `isSub` (src/utils/is-sub is not under src/)
decides whether a path lies under a base directory — section 4.4 drops
entries not under `remote_base_dir`. -/
def isSub (base p : String) : Bool :=
  strHasPref (String.mk (base.data ++ ['/'])) p

/-- The proper ancestor paths of a relative path: for `a/b/c.md` these are
`a` and `a/b`. -/
def ancestorPaths (p : String) : List String :=
  let parts := splitOnSlashAux p.data
  (List.range parts.length).filterMap (fun i =>
    if 0 < i ∧ i < parts.length
    then some (String.mk (List.intercalate ['/'] (parts.take i)))
    else none)

/-- Modelled from the spec: `completeLossDir` (src/fs/utils/complete-loss-dir
is not under src/) re-adds any ancestor directories implied by included
files but missing from the filtered set (spec section 4.4). -/
def completeLossDir (stats filteredStats : List StatModel) : List StatModel :=
  filteredStats ++ stats.filter (fun s =>
    s.isDir &&
    filteredStats.any (fun f => s.path ∈ ancestorPaths f.path) &&
    !filteredStats.any (fun f => f.path == s.path))

/-- One step of `getFromIndex`'s `iterateAll` callback: decode HTML
entities, re-normalize, keep only paths under the base, strip the
base-dir prefix (JavaScript `replace` removes the first occurrence), and
rebuild a `StatModel` (directories carry no size). -/
def entryToListed (remoteBaseDir : String) (entry : FileIndexEntry) : Option StatModel :=
  let base := stdRemotePath remoteBaseDir
  let path0 := decodeHtmlEntityM entry.path
  let path1 := if path0.data.getLast? = some '/'
    then String.mk path0.data.dropLast else path0
  let path2 := if strHasPref "/" path1 then path1 else String.mk ('/' :: path1.data)
  if !isSub base path2 then none
  else
    let rel0 := replaceFirst path2 remoteBaseDir
    let rel := if strHasPref "/" rel0 then String.mk rel0.data.tail else rel0
    if entry.isDir then
      some ⟨rel, entry.basename, true, false, entry.mtime, 0⟩
    else
      some ⟨rel, entry.basename, false, false, entry.mtime, entry.size⟩

/-- `IncrementalWebDAVFileSystem.getFromIndex`: stream the index, filter
and relativize, apply the externally supplied include filter (spec
section 6; a namespace with no filter rules includes everything), then
`completeLossDir`.  Idealization: the model visits every index entry,
while the real `iterateAll` (see `iterateAllVisited`) stops after the
first through the same async-callback slip; the theorems exercising this
definition do so on stores with at most one entry, where the two
semantics coincide. -/
def getFromIndex (idx : List FileIndexEntry) (remoteBaseDir : String)
    (includeFilter : String → Bool) : List StatModel :=
  let stats := idx.filterMap (entryToListed remoteBaseDir)
  let filteredStats := stats.filter (fun item => includeFilter item.path)
  completeLossDir stats filteredStats

/-- The record returned by `IncrementalWebDAVFileSystem.getStats`. -/
structure IndexStats where
  fileCount : Nat
  dirCount : Nat
  hasIndex : Bool
deriving DecidableEq, Repr

/-- `IncrementalWebDAVFileSystem.getStats` (`get_index_stats`). -/
def getIndexStats (idx : List FileIndexEntry) : IndexStats :=
  if idx.length = 0 then ⟨0, 0, false⟩
  else ⟨(getStats idx).fileCount, (getStats idx).dirCount, true⟩

/-- Result of one `walk()`: the listing returned to the caller and the
store state left behind. -/
structure WalkOut where
  listing : List StatModel
  state : StoreState
deriving DecidableEq, Repr

/-- `IncrementalWebDAVFileSystem.fullScan` (driver side): a progress record
is saved and cleared again around the detector's full scan, the rebuilt
stores replace the old ones, and the listing is read back from the index. -/
def driverFullScan (fuel now : Nat) (r : Remote) (remoteBaseDir : String)
    (includeFilter : String → Bool) : WalkOut :=
  let out := fullScan fuel now r remoteBaseDir
  ⟨getFromIndex out.fileIndex remoteBaseDir includeFilter,
   ⟨out.fileIndex, out.dirCache, none⟩⟩

/-- `IncrementalWebDAVFileSystem.walk`: full scan on an empty index or on
cache invalidation; otherwise detect, and either return the cached listing
(no changes) or apply the changes (`updateFileIndex` then
`updateDirMtimeCache`) and return the refreshed listing.  The saved
progress record is only logged. -/
def walkFn (fuel now : Nat) (r : Remote) (remoteBaseDir : String)
    (includeFilter : String → Bool) (s : StoreState) : WalkOut :=
  if s.fileIndex.length = 0 then
    driverFullScan fuel now r remoteBaseDir includeFilter
  else
    let res := detectChanges fuel r s.fileIndex s.dirCache remoteBaseDir
    if res.needFullScan then
      driverFullScan fuel now r remoteBaseDir includeFilter
    else if res.changes.isEmpty then
      ⟨getFromIndex s.fileIndex remoteBaseDir includeFilter, s⟩
    else
      let idx2 := updateFileIndex now res.changes s.fileIndex
      let cache2 := updateDirMtimeCache now r res.changes s.dirCache
      ⟨getFromIndex idx2 remoteBaseDir includeFilter, ⟨idx2, cache2, s.progress⟩⟩

/-! ## The parent-path invariant (spec section 3, invariant 1) -/

/-- `parentOk root idx e`: the parent path of `e` is the root or names an
existing directory entry of the index. -/
def parentOk (root : String) (idx : List FileIndexEntry) (e : FileIndexEntry) : Prop :=
  e.parentPath = root ∨ ∃ d ∈ idx, d.path = e.parentPath ∧ d.isDir = true

instance (root : String) (idx : List FileIndexEntry) (e : FileIndexEntry) :
    Decidable (parentOk root idx e) := by
  unfold parentOk; infer_instance

/-- Invariant 1 of spec section 3 for a whole index. -/
def indexInvariant (root : String) (idx : List FileIndexEntry) : Prop :=
  ∀ e ∈ idx, parentOk root idx e

instance (root : String) (idx : List FileIndexEntry) :
    Decidable (indexInvariant root idx) := by
  unfold indexInvariant; infer_instance

/-! ## Concrete scenarios

S1 (spec section 8): remote `{/base, /base/a.txt (mtime 100, size 10)}`.
S4 (spec section 8): `/base/sub/{x,y,z}` populated, then the whole
`/base/sub` subtree removed remotely (deletions advance `/base`'s mtime). -/

/-- The `/base` directory of scenario S1, mtime 10. -/
def statBase : StatModel := ⟨"/base", "base", true, false, 10, 0⟩

/-- `/base/a.txt` of scenario S1. -/
def statATxt : StatModel := ⟨"/base/a.txt", "a.txt", false, false, 100, 10⟩

/-- The S1 remote tree. -/
def remoteS1 : Remote := [statBase, statATxt]

/-- `/base/sub` of scenario S4, mtime 20. -/
def statSub : StatModel := ⟨"/base/sub", "sub", true, false, 20, 0⟩

/-- Child `x` of `/base/sub`. -/
def statX : StatModel := ⟨"/base/sub/x", "x", false, false, 1, 1⟩

/-- Child `y` of `/base/sub`. -/
def statY : StatModel := ⟨"/base/sub/y", "y", false, false, 2, 2⟩

/-- Child `z` of `/base/sub`. -/
def statZ : StatModel := ⟨"/base/sub/z", "z", false, false, 3, 3⟩

/-- The S4 remote tree before the deletion. -/
def remoteS4pre : Remote := [statBase, statSub, statX, statY, statZ]

/-- The S4 remote tree after `/base/sub` is removed; the deletion advanced
`/base`'s mtime from 10 to 30. -/
def remoteS4post : Remote := [⟨"/base", "base", true, false, 30, 0⟩]

/-- The index and cache a `walk()` at time 50 builds from the populated S4
tree (the first walk of the scenario, a full scan). -/
def scanS4 : FullScanOut := fullScan 4 50 remoteS4pre "/base"

/-- What `detectChanges` reports on the next `walk()`, after the subtree
was removed. -/
def resS4 : DeltaDetectionResult :=
  detectChanges 4 remoteS4post scanS4.fileIndex scanS4.dirCache "/base"

/-- The file index after that walk applies the reported changes at time 60. -/
def idxS4b : List FileIndexEntry := updateFileIndex 60 resS4.changes scanS4.fileIndex

/-- The dir-mtime cache after that walk applies the reported changes. -/
def cacheS4b : List DirMtimeEntry :=
  updateDirMtimeCache 60 remoteS4post resS4.changes scanS4.dirCache

/-- What the immediately following `walk()`'s `detectChanges` reports. -/
def resS4second : DeltaDetectionResult :=
  detectChanges 4 remoteS4post idxS4b cacheS4b "/base"

example : scanS4.fileIndex =
    [statToEntry statSub, statToEntry statX, statToEntry statY, statToEntry statZ] := by decide
example : scanS4.dirCache = [⟨"/base", 10, 50, 1⟩, ⟨"/base/sub", 20, 50, 3⟩] := by decide
example : resS4.changes = [⟨"/base/sub", ChangeType.deleted, none⟩] := by decide
example : idxS4b = [statToEntry statX, statToEntry statY, statToEntry statZ] := by decide
example : cacheS4b = [⟨"/base", 30, 60, 0⟩, ⟨"/base/sub", 20, 50, 3⟩] := by decide
example : resS4second = ⟨[], false, 1, 0⟩ := by decide

/-- The empty namespace S1 starts from. -/
def emptyState : StoreState := ⟨[], [], none⟩

/-- The first `walk()` of scenario S1 (fresh namespace, no filter rules),
executed at time 100. -/
def walkS1 : WalkOut := walkFn 3 100 remoteS1 "/base" (fun _ => true) emptyState

example : walkS1.listing = [⟨"a.txt", "a.txt", false, false, 100, 10⟩] := by decide
example : walkS1.state.fileIndex = [statToEntry statATxt] := by decide
example : getIndexStats walkS1.state.fileIndex = ⟨1, 0, true⟩ := by decide
example : fullScan 3 100 remoteS1 "/base" = ⟨[statToEntry statATxt], [⟨"/base", 10, 100, 1⟩], 1, 0⟩ := by decide

/-! ## Helper lemmas -/

/-- Everything in a store after `setItem` was already there or is the new
record. -/
lemma mem_setItem {s : List FileIndexEntry} {a e : FileIndexEntry}
    (h : e ∈ setItem s a) : e ∈ s ∨ e = a := by
  unfold setItem at h
  split at h
  · rcases List.mem_map.mp h with ⟨x, hx, hxe⟩
    by_cases hp : (x.path == a.path) = true
    · rw [if_pos hp] at hxe
      exact Or.inr hxe.symm
    · rw [if_neg hp] at hxe
      exact Or.inl (hxe ▸ hx)
  · rcases List.mem_append.mp h with h | h
    · exact Or.inl h
    · simp only [List.mem_singleton] at h
      exact Or.inr h

/-- Everything in a store after `batchSet` was already there or is one of
the written records. -/
lemma mem_batchSet {l : List FileIndexEntry} :
    ∀ {s : List FileIndexEntry} {e : FileIndexEntry},
      e ∈ batchSet s l → e ∈ s ∨ e ∈ l := by
  induction l with
  | nil => intro s e h; exact Or.inl h
  | cons a t ih =>
    intro s e h
    rw [batchSet, List.foldl_cons] at h
    rcases ih h with h | h
    · rcases mem_setItem h with h | h
      · exact Or.inl h
      · exact Or.inr (by simp [h])
    · exact Or.inr (List.mem_cons_of_mem _ h)

/-- After `setItem s a` some record carries `a`'s key. -/
lemma setItem_exists_path (s : List FileIndexEntry) (a : FileIndexEntry) :
    ∃ x ∈ setItem s a, x.path = a.path := by
  unfold setItem
  split
  · next h =>
    rcases List.any_eq_true.mp h with ⟨x, hx, hp⟩
    exact ⟨a, List.mem_map.mpr ⟨x, hx, by rw [if_pos hp]⟩, rfl⟩
  · exact ⟨a, by simp, rfl⟩

/-- `setItem` never removes a key from the store. -/
lemma setItem_preserves_path {s : List FileIndexEntry} {p : String}
    (a : FileIndexEntry) (h : ∃ x ∈ s, x.path = p) :
    ∃ x ∈ setItem s a, x.path = p := by
  rcases h with ⟨x, hx, hp⟩
  unfold setItem
  split
  · by_cases hxa : (x.path == a.path) = true
    · refine ⟨a, List.mem_map.mpr ⟨x, hx, by rw [if_pos hxa]⟩, ?_⟩
      rw [← beq_iff_eq.mp hxa, hp]
    · exact ⟨x, List.mem_map.mpr ⟨x, hx, by rw [if_neg hxa]⟩, hp⟩
  · exact ⟨x, List.mem_append_left _ hx, hp⟩

/-- `batchSet` never removes a key from the store. -/
lemma batchSet_preserves_path {l : List FileIndexEntry} :
    ∀ {s : List FileIndexEntry} {p : String},
      (∃ x ∈ s, x.path = p) → ∃ x ∈ batchSet s l, x.path = p := by
  induction l with
  | nil => intro s p h; exact h
  | cons a t ih =>
    intro s p h
    rw [batchSet, List.foldl_cons]
    exact ih (setItem_preserves_path a h)

/-- Every record handed to `batchSet` leaves some record with its key in
the store. -/
lemma batchSet_exists_path {l : List FileIndexEntry} {f : FileIndexEntry}
    (hf : f ∈ l) : ∀ s : List FileIndexEntry, ∃ x ∈ batchSet s l, x.path = f.path := by
  induction l with
  | nil => cases hf
  | cons a t ih =>
    intro s
    rw [batchSet, List.foldl_cons]
    rcases List.mem_cons.mp hf with rfl | hf'
    · exact batchSet_preserves_path (setItem_exists_path s f)
    · exact ih hf' (setItem s a)

/-- Unpack membership in a depth-1 listing: the stat is a live remote
resource, distinct from the directory, whose `dirname` is the directory. -/
lemma mem_listDir {r : Remote} {d : String} {st : StatModel}
    (h : st ∈ listDir r d) : st ∈ r ∧ st.path ≠ d ∧ dirname st.path = d := by
  unfold listDir propfind at h
  rw [if_neg (by decide)] at h
  rcases List.mem_filter.mp h with ⟨hmem, hne⟩
  rcases List.mem_append.mp hmem with h1 | h1
  · rcases List.mem_filter.mp h1 with ⟨_, hp⟩
    simp only [bne_iff_ne, ne_eq] at hne
    exact absurd (beq_iff_eq.mp hp) hne
  · rcases List.mem_filter.mp h1 with ⟨hr, hp⟩
    simp only [Bool.and_eq_true, bne_iff_ne, ne_eq, beq_iff_eq] at hp
    exact ⟨hr, hp.1, hp.2⟩

/-- Every entry a full-scan recursion writes either has the scanned
directory as parent or its parent is itself written as a directory entry
of the same recursion. -/
lemma scan_entries_parent (r : Remote) (now : Nat) :
    ∀ (fuel : Nat) (d : String), ∀ e ∈ (scanDirRecursive r now fuel d).entries,
      e.parentPath = d ∨
      ∃ f ∈ (scanDirRecursive r now fuel d).entries,
        f.path = e.parentPath ∧ f.isDir = true := by
  intro fuel
  induction fuel with
  | zero => intro d e he; simp [scanDirRecursive] at he
  | succ n ih =>
    intro d e he
    rw [scanDirRecursive] at he ⊢
    simp only at he ⊢
    rcases List.mem_append.mp he with h1 | h1
    · rcases List.mem_map.mp h1 with ⟨st, hst, rfl⟩
      left
      have hld : st ∈ listDir r d := hst
      exact (mem_listDir hld).2.2 ▸ rfl
    · rcases List.mem_flatMap.mp h1 with ⟨acc, hacc, hacce⟩
      rcases List.mem_map.mp hacc with ⟨sd, hsd, rfl⟩
      rcases ih sd.path e hacce with hp | ⟨f, hf, hfp, hfd⟩
      · right
        rcases List.mem_filter.mp hsd with ⟨hsd', hdir⟩
        refine ⟨statToEntry sd, List.mem_append_left _ (List.mem_map.mpr ⟨sd, hsd', rfl⟩), ?_, ?_⟩
        · exact hp ▸ rfl
        · exact hdir
      · right
        refine ⟨f, List.mem_append_right _ ?_, hfp, hfd⟩
        exact List.mem_flatMap.mpr ⟨scanDirRecursive r now n sd.path,
          List.mem_map.mpr ⟨sd, hsd, rfl⟩, hf⟩

/-- Every entry a full-scan recursion writes reflects a live remote stat:
same path, same directory flag. -/
lemma scan_entries_fromRemote (r : Remote) (now : Nat) :
    ∀ (fuel : Nat) (d : String), ∀ e ∈ (scanDirRecursive r now fuel d).entries,
      ∃ st ∈ r, st.path = e.path ∧ st.isDir = e.isDir := by
  intro fuel
  induction fuel with
  | zero => intro d e he; simp [scanDirRecursive] at he
  | succ n ih =>
    intro d e he
    rw [scanDirRecursive] at he
    simp only at he
    rcases List.mem_append.mp he with h1 | h1
    · rcases List.mem_map.mp h1 with ⟨st, hst, rfl⟩
      have hld : st ∈ listDir r d := hst
      exact ⟨st, (mem_listDir hld).1, rfl, rfl⟩
    · rcases List.mem_flatMap.mp h1 with ⟨acc, hacc, hacce⟩
      rcases List.mem_map.mp hacc with ⟨sd, hsd, rfl⟩
      exact ih sd.path e hacce

/-- Every entry a full-scan recursion writes is stamped `lastSynced = 0`. -/
lemma scan_entries_lastSynced (r : Remote) (now : Nat) :
    ∀ (fuel : Nat) (d : String), ∀ e ∈ (scanDirRecursive r now fuel d).entries,
      e.lastSynced = 0 := by
  intro fuel
  induction fuel with
  | zero => intro d e he; simp [scanDirRecursive] at he
  | succ n ih =>
    intro d e he
    rw [scanDirRecursive] at he
    simp only at he
    rcases List.mem_append.mp he with h1 | h1
    · rcases List.mem_map.mp h1 with ⟨st, _, rfl⟩
      rfl
    · rcases List.mem_flatMap.mp h1 with ⟨acc, hacc, hacce⟩
      rcases List.mem_map.mp hacc with ⟨sd, hsd, rfl⟩
      exact ih sd.path e hacce

/-- The per-changed-directory scan loop threads the store state through
unchanged and accumulates exactly the pure per-directory diffs. -/
lemma scanFold_state (r : Remote) (dirs : List String) :
    ∀ (acc : List RemoteChange) (s : StoreState),
      (dirs.foldl (fun (a : List RemoteChange × StoreState) dir =>
        let one := scanDirForChangesSt r dir a.2
        (a.1 ++ one.1, one.2)) (acc, s))
      = (acc ++ dirs.flatMap (fun dir => scanDirForChanges r s.fileIndex dir), s) := by
  induction dirs with
  | nil => intro acc s; simp
  | cons d t ih =>
    intro acc s
    rw [List.foldl_cons, List.flatMap_cons]
    show (t.foldl (fun (a : List RemoteChange × StoreState) dir =>
        let one := scanDirForChangesSt r dir a.2
        (a.1 ++ one.1, one.2)) (acc ++ scanDirForChanges r s.fileIndex d, s)) = _
    rw [ih, List.append_assoc]

/-! ## Claims -/

/-- C1 counterexample: in scenario S4 (the index and dir-mtime cache were
populated from `/base/sub/{x,y,z}` by a full scan, then the whole
`/base/sub` subtree disappeared remotely) the changes the next `walk()`
detects and applies consist of the single `deleted` record for `sub`
itself; contrary to the claim, no `deleted` change is reported for the
child `x` (nor, by the first conjunct, for `y` or `z`). -/
theorem C1_counterexample :
    resS4.changes = [⟨"/base/sub", ChangeType.deleted, none⟩] ∧
    RemoteChange.mk "/base/sub/x" ChangeType.deleted none ∉ resS4.changes := by
  decide

/-- C1 (amended): after the `/base/sub` subtree is removed, `walk()`
reports exactly one `deleted` change — for `sub` itself; the children
x, y, z are not reported (their index entries survive, orphaned), and the
immediately following `walk()` detects no changes.  The detector never
visits `/base/sub`: it only descends into subdirectories present in the
current remote listing, and the file-level diff of `/base` sees only the
immediate child `sub`. -/
theorem C1_subtree_deletion :
    resS4.changes = [⟨"/base/sub", ChangeType.deleted, none⟩] ∧
    statToEntry statX ∈ idxS4b ∧
    resS4second.changes = [] ∧
    resS4second.needFullScan = false := by
  decide

/-- C2: if the cached dir-mtime entry of the base directory still matches
the remote's current mtime (the remote is unchanged since the walk that
recorded the cache), `detectChanges` returns no changes, does not request
a full scan, and issues at most `D` depth-0 propfind requests, where `D`
is the number of cached directory-mtime entries (it issues exactly one,
for the base directory, and `D ≥ 1`). -/
theorem C2_incremental_soundness (fuel : Nat) (r : Remote)
    (idx : List FileIndexEntry) (cache : List DirMtimeEntry)
    (remoteBaseDir : String) (e : DirMtimeEntry) (m : Nat)
    (hbase : dirLookup cache remoteBaseDir = some e)
    (hstat : statDir r remoteBaseDir = some m)
    (hunchanged : e.mtime = m) :
    (detectChanges fuel r idx cache remoteBaseDir).changes = [] ∧
    (detectChanges fuel r idx cache remoteBaseDir).needFullScan = false ∧
    detectChangesPropfind0 fuel r cache remoteBaseDir ≤ cache.length := by
  have hne : cache.isEmpty = false := by
    cases cache with
    | nil => simp [dirLookup] at hbase
    | cons a t => rfl
  have hlen : 1 ≤ cache.length := by
    cases cache with
    | nil => simp [dirLookup] at hbase
    | cons a t => simp
  cases fuel with
  | zero =>
    refine ⟨?_, ?_, ?_⟩ <;>
      simp [detectChanges, detectChangesPropfind0, detectDirChanges, hne]
  | succ n =>
    have ht : detectDirChanges r cache (n + 1) remoteBaseDir = ([], 1, 1) := by
      rw [detectDirChanges, hstat, hbase]
      simp [hunchanged]
    refine ⟨?_, ?_, ?_⟩ <;>
      simp [detectChanges, detectChangesPropfind0, hne, ht, hlen]

/-- C2 witness: a one-directory remote whose mtime matches the single
cached entry. -/
theorem C2_witness :
    (detectChanges 1 [statBase] [] [⟨"/base", 10, 0, 1⟩] "/base").changes = [] ∧
    (detectChanges 1 [statBase] [] [⟨"/base", 10, 0, 1⟩] "/base").needFullScan = false ∧
    detectChangesPropfind0 1 [statBase] [⟨"/base", 10, 0, 1⟩] "/base" ≤
      ([⟨"/base", 10, 0, 1⟩] : List DirMtimeEntry).length :=
  C2_incremental_soundness 1 [statBase] [] [⟨"/base", 10, 0, 1⟩] "/base"
    ⟨"/base", 10, 0, 1⟩ 10 (by decide) (by decide) rfl

/-- C3 (amended): `detectChanges` returns `needFullScan = true` exactly
when the directory-mtime cache is empty; it performs no invariant checking
on the cached state. -/
theorem C3_needFullScan_iff_empty_cache (fuel : Nat) (r : Remote)
    (idx : List FileIndexEntry) (cache : List DirMtimeEntry)
    (remoteBaseDir : String) :
    (detectChanges fuel r idx cache remoteBaseDir).needFullScan = true ↔
      cache = [] := by
  unfold detectChanges
  cases cache <;> simp

/-- C3 counterexample: the post-S4 store state violates the parent-path
invariant (`x`, `y`, `z` are orphans — their parent `/base/sub` has no
index entry), yet `detectChanges` run on that state returns
`needFullScan = false`: invariant violations in the cache do not force a
full scan. -/
theorem C3_counterexample :
    ¬ indexInvariant "/base" idxS4b ∧ resS4second.needFullScan = false := by
  decide

/-- C4 (amended): after `fullScan` completes on a remote whose listing
does not repeat paths with conflicting directory flags, every index
entry's `parentPath` either equals the root (`remote_base_dir`) or is the
path of an existing index entry with `isDir = true`. -/
theorem C4_invariant_after_fullScan (fuel now : Nat) (r : Remote)
    (remoteBaseDir : String)
    (hfun : ∀ a ∈ r, ∀ b ∈ r, a.path = b.path → a.isDir = b.isDir) :
    indexInvariant remoteBaseDir (fullScan fuel now r remoteBaseDir).fileIndex := by
  intro e he
  have hacc : e ∈ (scanDirRecursive r now fuel remoteBaseDir).entries := by
    rcases mem_batchSet he with h | h
    · cases h
    · exact h
  rcases scan_entries_parent r now fuel remoteBaseDir e hacc with hp | ⟨f, hf, hfp, hfd⟩
  · exact Or.inl hp
  · right
    rcases batchSet_exists_path hf [] with ⟨f2, hf2, hf2p⟩
    have hf2acc : f2 ∈ (scanDirRecursive r now fuel remoteBaseDir).entries := by
      rcases mem_batchSet hf2 with h | h
      · cases h
      · exact h
    rcases scan_entries_fromRemote r now fuel remoteBaseDir f hf with ⟨st, hst, hstp, hstd⟩
    rcases scan_entries_fromRemote r now fuel remoteBaseDir f2 hf2acc with ⟨st2, hst2, hst2p, hst2d⟩
    refine ⟨f2, hf2, by rw [hf2p, hfp], ?_⟩
    have : st.isDir = st2.isDir := hfun st hst st2 hst2 (by rw [hstp, hst2p, hf2p])
    rw [← hst2d, ← this, hstd, hfd]

/-- C4 witness: the invariant holds for the concrete full scan of the S1
remote. -/
theorem C4_witness :
    indexInvariant "/base" (fullScan 3 50 remoteS1 "/base").fileIndex :=
  C4_invariant_after_fullScan 3 50 remoteS1 "/base" (by decide)

/-- C4 counterexample: applying the detector-produced change list of
scenario S4 through `updateFileIndex` leaves the index with entries
(`x`, `y`, `z`) whose `parentPath` `/base/sub` is neither the root nor the
path of any index entry: the invariant does not hold after
`updateFileIndex`. -/
theorem C4_counterexample :
    ¬ indexInvariant "/base"
      (updateFileIndex 60
        (detectChanges 4 remoteS4post scanS4.fileIndex scanS4.dirCache "/base").changes
        scanS4.fileIndex) := by
  decide

/-- C5 (amended): on a fresh namespace with remote tree
`{/base, /base/a.txt (mtime 100, size 10)}`, `walk()` returns the listing
`[a.txt]`, and `get_index_stats()` afterwards returns `file_count = 1`,
`dir_count = 0`, `has_index = true`.  The directory count is 0, not 1: the
base directory itself is never written to the file index (a full scan
indexes only the children of each visited directory), and `getStats`
counts directories by scanning index entries with `isDir = true`. -/
theorem C5_bootstrap_listing_and_stats :
    walkS1.listing = [⟨"a.txt", "a.txt", false, false, 100, 10⟩] ∧
    getIndexStats walkS1.state.fileIndex = ⟨1, 0, true⟩ := by
  decide

/-- C5 counterexample: `get_index_stats()` after the S1 bootstrap walk
does not return `{file_count: 1, dir_count: 1, has_index: true}` (the
directory count is 0). -/
theorem C5_counterexample :
    getIndexStats walkS1.state.fileIndex ≠ ⟨1, 1, true⟩ := by
  decide

/-- C6 (amended): `updateFileIndex` stamps every record it writes with
`lastSynced = now`, but `fullScan` writes every record with
`lastSynced = 0` — not the time of the write. -/
theorem C6_lastSynced (now fuel : Nat) (r : Remote) (d : String)
    (changes : List RemoteChange) :
    (∀ e ∈ changesToSet now changes, e.lastSynced = now) ∧
    (∀ e ∈ (scanDirRecursive r now fuel d).entries, e.lastSynced = 0) := by
  constructor
  · intro e he
    rcases List.mem_filterMap.mp he with ⟨c, _, hsome⟩
    cases hct : c.type <;> rw [hct] at hsome
    · rcases Option.map_eq_some'.mp hsome with ⟨st, _, rfl⟩
      rfl
    · rcases Option.map_eq_some'.mp hsome with ⟨st, _, rfl⟩
      rfl
    · cases hsome
  · exact scan_entries_lastSynced r now fuel d

/-- C6 witness: a concrete `added` change applied at time 7 yields a
record with `lastSynced = 7`, while the full-scan record of the same file
carries `lastSynced = 0`. -/
theorem C6_witness :
    ({ path := "/base/a.txt", basename := "a.txt", isDir := false,
       mtime := 100, size := 10, etag := none, contentHash := none,
       lastSynced := 7, parentPath := "/base" } : FileIndexEntry).lastSynced = 7 ∧
    (statToEntry statATxt).lastSynced = 0 :=
  ⟨(C6_lastSynced 7 1 remoteS1 "/base"
      [⟨"/base/a.txt", ChangeType.added, some statATxt⟩]).1 _ (by decide),
   (C6_lastSynced 7 1 remoteS1 "/base"
      [⟨"/base/a.txt", ChangeType.added, some statATxt⟩]).2 _ (by decide)⟩

/-- C6 counterexample: the record `fullScan` (run at time 100) writes for
`/base/a.txt` carries `lastSynced = 0`, not the time of the write. -/
theorem C6_counterexample :
    ((fullScan 3 100 remoteS1 "/base").fileIndex.find?
        (fun e => e.path == "/base/a.txt")).map FileIndexEntry.lastSynced = some 0 ∧
    ((fullScan 3 100 remoteS1 "/base").fileIndex.find?
        (fun e => e.path == "/base/a.txt")).map FileIndexEntry.lastSynced ≠ some 100 := by
  decide

/-- C7: for a path present in both the current and the cached listing of a
changed directory, `scanDirForChanges` emits a `modified` change exactly
when `isModified` holds, and `isModified` holds exactly when the cached
and remote records disagree on `isDir`, or the remote record is a file
and they disagree on `mtime` or `size` — so an `isDir` flip alone
qualifies, and a directory whose only difference is its mtime is not
emitted. -/
theorem C7_modified_iff (r : Remote) (idx : List FileIndexEntry) (d p : String)
    (rs : StatModel) (cs : FileIndexEntry)
    (hr : (listDir r d).find? (fun s => s.path == p) = some rs)
    (hc : (getByParentD idx d).find? (fun c => c.path == p) = some cs) :
    ((RemoteChange.mk p ChangeType.modified (some rs)) ∈ scanDirForChanges r idx d ↔
      isModified cs rs = true) ∧
    (isModified cs rs = true ↔
      (cs.isDir ≠ rs.isDir ∨
        (rs.isDir = false ∧ (cs.mtime ≠ rs.mtime ∨ cs.size ≠ rs.size)))) := by
  have hrp0 := List.find?_some hr
  simp only [beq_iff_eq] at hrp0
  have hrp : rs.path = p := hrp0
  have hrmem : rs ∈ listDir r d := List.mem_of_find?_eq_some hr
  constructor
  · constructor
    · intro hmem
      unfold scanDirForChanges diffLists diffAddMod diffDeleted at hmem
      rcases List.mem_append.mp hmem with h1 | h1
      · rcases List.mem_filterMap.mp h1 with ⟨rs0, _, heq⟩
        cases hf : (getByParentD idx d).find? (fun c => c.path == rs0.path) with
        | none => rw [hf] at heq; simp at heq
        | some c =>
          rw [hf] at heq
          simp only [] at heq
          by_cases him : isModified c rs0 = true
          · rw [if_pos him] at heq
            simp only [Option.some.injEq, RemoteChange.mk.injEq] at heq
            obtain ⟨hp0, -, hs0⟩ := heq
            obtain rfl : rs0 = rs := by
              cases hs0.symm; rfl
            rw [hrp] at hf
            rw [hf] at hc
            cases hc
            exact him
          · rw [if_neg him] at heq
            cases heq
      · rcases List.mem_filterMap.mp h1 with ⟨c, _, heq⟩
        by_cases hdel :
            ((listDir r d).find? (fun rs1 => rs1.path == c.path)).isSome = true
        · rw [if_pos hdel] at heq
          cases heq
        · rw [if_neg hdel] at heq
          simp at heq
    · intro him
      unfold scanDirForChanges diffLists
      apply List.mem_append_left
      unfold diffAddMod
      apply List.mem_filterMap.mpr
      refine ⟨rs, hrmem, ?_⟩
      rw [hrp, hc]
      simp only [him, if_true]
  · unfold isModified
    cases hcd : cs.isDir <;> cases hrd : rs.isDir <;>
      simp [hcd, hrd, bne_iff_ne]

/-- The remote and cached records of the C7 witness: `/base/a.txt` was
indexed with mtime 100/size 10 and the remote now reports mtime 200 and
size 20. -/
def rsW : StatModel := ⟨"/base/a.txt", "a.txt", false, false, 200, 20⟩

/-- The cached index record of the C7 witness. -/
def csW : FileIndexEntry := statToEntry statATxt

/-- The remote tree of the C7 witness. -/
def remoteW : Remote := [⟨"/base", "base", true, false, 40, 0⟩, rsW]

/-- C7 witness: at the concrete changed directory `/base`, the `modified`
change for `/base/a.txt` is governed exactly by `isModified`, and
`isModified` by the tuple comparison. -/
theorem C7_witness :
    ((RemoteChange.mk "/base/a.txt" ChangeType.modified (some rsW)) ∈
        scanDirForChanges remoteW [csW] "/base" ↔ isModified csW rsW = true) ∧
    (isModified csW rsW = true ↔
      (csW.isDir ≠ rsW.isDir ∨
        (rsW.isDir = false ∧ (csW.mtime ≠ rsW.mtime ∨ csW.size ≠ rsW.size)))) :=
  C7_modified_iff remoteW [csW] "/base" "/base/a.txt" rsW csW (by decide) (by decide)

/-- C8: `detectChanges` is non-destructive with respect to persistent
state — with every store access threaded through the state, the file
index, the directory-mtime cache and the sync-progress record are
returned exactly as they were, and the result coincides with the pure
reading of the initial state. -/
theorem C8_detectChanges_frame (fuel : Nat) (r : Remote) (remoteBaseDir : String)
    (s : StoreState) :
    (detectChangesSt fuel r remoteBaseDir s).2 = s ∧
    (detectChangesSt fuel r remoteBaseDir s).1 =
      detectChanges fuel r s.fileIndex s.dirCache remoteBaseDir := by
  have hfold := scanFold_state r (detectDirChanges r s.dirCache fuel remoteBaseDir).1 [] s
  by_cases hemp : s.dirCache.isEmpty = true
  · constructor <;> simp [detectChangesSt, detectChanges, dirStoreGetAll, hemp]
  · constructor <;>
      simp [detectChangesSt, detectChanges, dirStoreGetAll, hemp, hfold]

/-- First sample index record for the C9 run. -/
def entryA : FileIndexEntry := statToEntry statX

/-- Second sample index record for the C9 run. -/
def entryB : FileIndexEntry := statToEntry statY

/-- C9: `iterateAll` is not the streaming visitor the claim (and the
source's own doc comment, "stream-iterate all files") describes: on a
store with two entries and a callback that returns `true` — the continue
signal — on every entry, only the first entry is visited.  The inner
callback handed to localforage is `async`, so its immediate return value
is a Promise — non-`undefined`, localforage's early-exit signal — and
iteration stops after the first entry no matter what the callback
returned; the falsy short-circuit the source's "stop iteration" comment
intends changes nothing, as both body paths yield `undefined`. -/
theorem C9_iterateAll_stops_after_first :
    iterateAllVisited [entryA, entryB] (fun _ => true) = [entryA] ∧
    entryB ∉ iterateAllVisited [entryA, entryB] (fun _ => true) := by
  decide

/-- C10: an `added` or `modified` change whose `stat` field is absent is
silently ignored by `updateFileIndex` — applying the change list with it
is the same as applying the change list without it, so nothing is written
or deleted for its path. -/
theorem C10_statless_change_ignored (p : String) (rest : List RemoteChange)
    (idx : List FileIndexEntry) (now : Nat) :
    updateFileIndex now (⟨p, ChangeType.added, none⟩ :: rest) idx =
      updateFileIndex now rest idx ∧
    updateFileIndex now (⟨p, ChangeType.modified, none⟩ :: rest) idx =
      updateFileIndex now rest idx := by
  unfold updateFileIndex changesToSet changesToDelete
  simp
